import Mathlib

/-!
Verification of the nuru-cat cell renderer and render driver.

The definitions below are a shallow embedding of the rendering core of
`src/nuru-cat.c` (the mode-dispatched cell renderer `print_color_4bit`,
`print_color_8bit`, `print_color_pal`, `print_glyph_none`, `print_glyph_ascii`,
`print_glyph_unicode`, `print_glyph_pal`, and the render driver `print_nui`)
together with the legacy pipeline of the companion program (its own
`print_nui`, `color_fg`, `color_bg`).

Terminal output is modelled as a list of `Tok` tokens, one per C output call
(`wprintf` of one escape sequence, `fputwc` of one character, `fputws` of the
reset sequence or a newline).  `Tok.bytes` renders a token to the byte stream
the C code actually writes, so token streams can also be compared as raw
terminal output.

Cell fields and sentinel keys are `uint8_t` values in C; they are modelled as
`Nat`, and an explicit `% 256` is inserted exactly where the C code performs a
narrowing conversion to `uint8_t` (the `col` assignments in
`print_color_4bit`).

The vendored header `nuru.h` is not among the sources; the handful of helpers
the renderer takes from it (`NURU_SPACE`, `nuru_img_get_cell`,
`nuru_pal_get_col_8bit`, `nuru_pal_get_col_rgb`, `nuru_pal_get_glyph`, the
palette type tags and the mode constants) are modelled from the spec, as noted
on each such definition.
-/

/-- One unit of terminal output, corresponding to one C output call:
`sgr n` is `wprintf(L"\x1b[%hhum", n)`, `sgrFg8`/`sgrBg8` are the 256-color
set sequences, `sgrFgRGB`/`sgrBgRGB` the true-color ones, `reset` is
`fputws(ANSI_FONT_RESET, stdout)`, `chr c` is `fputwc(c, stdout)` and `nl` is
`fputwc('\n', stdout)`. -/
inductive Tok where
  | sgr (n : Nat)
  | sgrFg8 (n : Nat)
  | sgrBg8 (n : Nat)
  | sgrFgRGB (r g b : Nat)
  | sgrBgRGB (r g b : Nat)
  | reset
  | chr (c : Nat)
  | nl
deriving DecidableEq

/-- Decimal digits of `n` as ASCII codes (fuel-based; fuel 3 covers `uint8_t`). -/
def decDigits : Nat → Nat → List Nat
  | 0, _ => []
  | fuel + 1, n => if n < 10 then [48 + n] else decDigits fuel (n / 10) ++ [48 + n % 10]

/-- Rendering of a `%hhu` conversion: the argument truncated to `uint8_t`,
printed in decimal. -/
def u8str (n : Nat) : List Nat := decDigits 3 (n % 256)

/-- The byte (character-code) stream a token stands for; `27` is ESC. -/
def Tok.bytes : Tok → List Nat
  | Tok.sgr n => [27, 91] ++ u8str n ++ [109]
  | Tok.sgrFg8 n => [27, 91, 51, 56, 59, 53, 59] ++ u8str n ++ [109]
  | Tok.sgrBg8 n => [27, 91, 52, 56, 59, 53, 59] ++ u8str n ++ [109]
  | Tok.sgrFgRGB r g b =>
      [27, 91, 51, 56, 59, 50, 59] ++ u8str r ++ [59] ++ u8str g ++ [59] ++ u8str b ++ [109]
  | Tok.sgrBgRGB r g b =>
      [27, 91, 52, 56, 59, 50, 59] ++ u8str r ++ [59] ++ u8str g ++ [59] ++ u8str b ++ [109]
  | Tok.reset => [27, 91, 48, 109]
  | Tok.chr c => [c]
  | Tok.nl => [10]

/-- Flatten a token stream to the raw byte stream written to the terminal. -/
def outBytes (ts : List Tok) : List Nat := (ts.map Tok.bytes).flatten

/-- `nuru_cell_s`: one grid cell, glyph value plus fg/bg color values
(byte values in the wire format). -/
structure nuru_cell_s where
  ch : Nat
  fg : Nat
  bg : Nat
deriving DecidableEq

/-- Modelled from the spec: the color-mode constants `NURU_COLOR_MODE_NONE`,
`NURU_COLOR_MODE_4BIT`, `NURU_COLOR_MODE_8BIT`, `NURU_COLOR_MODE_PALETTE`
live in the missing header `nuru.h`; per spec section 3 the encoding modes
form a closed enumeration, matched here by the `switch` in `print_nui`. -/
inductive ColorMode where
  | none
  | c4bit
  | c8bit
  | palette
deriving DecidableEq

/-- Modelled from the spec: the glyph-mode constants `NURU_GLYPH_MODE_NONE`,
`NURU_GLYPH_MODE_ASCII`, `NURU_GLYPH_MODE_UNICODE`, `NURU_GLYPH_MODE_PALETTE`
live in the missing header `nuru.h`; spec section 3 makes glyph modes a
closed enumeration. -/
inductive GlyphMode where
  | none
  | ascii
  | unicode
  | palette
deriving DecidableEq

/-- `nuru_img_s`: the decoded image fields the renderer reads — modes,
dimensions, the three sentinel keys and the row-major cell grid.  (The legacy
program's image struct names its two sentinel fields `fg`/`bg`; they play the
role of `fg_key`/`bg_key` here.) -/
structure nuru_img_s where
  color_mode : ColorMode
  glyph_mode : GlyphMode
  cols : Nat
  rows : Nat
  ch_key : Nat
  fg_key : Nat
  bg_key : Nat
  cells : List nuru_cell_s

/-- `nuru_rgb_s`: one RGB palette entry. -/
structure nuru_rgb_s where
  r : Nat
  g : Nat
  b : Nat
deriving DecidableEq

/-- `nuru_pal_s`: a loaded palette.  The three variants carry the tag compared
against `NURU_PAL_TYPE_COLOR_8BIT` / `NURU_PAL_TYPE_COLOR_RGB` in
`print_color_pal` (the tags themselves live in the missing `nuru.h`; spec
section 3 makes the palette a tagged variant with exactly these three
mutually exclusive shapes). -/
inductive nuru_pal_s where
  | color8bit (entries : List Nat)
  | colorRGB (entries : List nuru_rgb_s)
  | glyphTable (entries : List Nat)
deriving DecidableEq

/-- Modelled from the spec: `nuru_pal_get_col_8bit` lives in the missing
header `nuru.h`; per spec section 3 a `ColorTable8Bit` palette maps an index
to an 8-bit terminal color number. -/
def nuru_pal_get_col_8bit (pal : nuru_pal_s) (idx : Nat) : Nat :=
  match pal with
  | nuru_pal_s.color8bit entries => entries.getD idx 0
  | _ => 0

/-- Modelled from the spec: `nuru_pal_get_col_rgb` lives in the missing
header `nuru.h`; per spec section 3 a `ColorTableRGB` palette maps an index
to an `(r, g, b)` triple. -/
def nuru_pal_get_col_rgb (pal : nuru_pal_s) (idx : Nat) : nuru_rgb_s :=
  match pal with
  | nuru_pal_s.colorRGB entries => entries.getD idx ⟨0, 0, 0⟩
  | _ => ⟨0, 0, 0⟩

/-- Modelled from the spec: `nuru_pal_get_glyph` lives in the missing header
`nuru.h`; per spec section 3 a `GlyphTable` palette maps an index to a
codepoint. -/
def nuru_pal_get_glyph (pal : nuru_pal_s) (idx : Nat) : Nat :=
  match pal with
  | nuru_pal_s.glyphTable entries => entries.getD idx 0
  | _ => 0

/-- Modelled from the spec: `NURU_SPACE`, the fixed blank glyph from the
missing header `nuru.h` — a space, per spec section 4.4. -/
def NURU_SPACE : Nat := 32

/-- Modelled from the spec: `nuru_img_get_cell` lives in the missing header
`nuru.h`; per spec section 3 the grid stores `cols * rows` cells in row-major
order, so `(col, row)` resolves to index `row * cols + col`. -/
def nuru_img_get_cell (nui : nuru_img_s) (c r : Nat) : nuru_cell_s :=
  nui.cells.getD (r * nui.cols + c) ⟨0, 0, 0⟩

/-- Foreground half of `print_color_4bit` (nuru-cat.c lines 203-209): skip on
the sentinel, otherwise `uint8_t col = fg < 8 ? fg + 30 : fg + 82` and emit
`\x1b[<col>m`.  The `% 256` is the narrowing assignment to `uint8_t col`. -/
def color_4bit_fg (cell : nuru_cell_s) (fg_key : Nat) : List Tok :=
  if cell.fg ≠ fg_key then
    [Tok.sgr ((if cell.fg < 8 then cell.fg + 30 else cell.fg + 82) % 256)]
  else []

/-- Background half of `print_color_4bit` (nuru-cat.c lines 210-216):
`uint8_t col = (bg < 8 ? bg + 30 : bg + 82) + 10`. -/
def color_4bit_bg (cell : nuru_cell_s) (bg_key : Nat) : List Tok :=
  if cell.bg ≠ bg_key then
    [Tok.sgr (((if cell.bg < 8 then cell.bg + 30 else cell.bg + 82) + 10) % 256)]
  else []

/-- `print_color_4bit` (nuru-cat.c lines 200-217): two independent
conditionals, fg then bg. -/
def print_color_4bit (cell : nuru_cell_s) (fg_key bg_key : Nat) : List Tok :=
  color_4bit_fg cell fg_key ++ color_4bit_bg cell bg_key

/-- Foreground half of `print_color_8bit` (nuru-cat.c lines 222-225). -/
def color_8bit_fg (cell : nuru_cell_s) (fg_key : Nat) : List Tok :=
  if cell.fg ≠ fg_key then [Tok.sgrFg8 cell.fg] else []

/-- Background half of `print_color_8bit` (nuru-cat.c lines 226-229). -/
def color_8bit_bg (cell : nuru_cell_s) (bg_key : Nat) : List Tok :=
  if cell.bg ≠ bg_key then [Tok.sgrBg8 cell.bg] else []

/-- `print_color_8bit` (nuru-cat.c lines 219-230). -/
def print_color_8bit (cell : nuru_cell_s) (fg_key bg_key : Nat) : List Tok :=
  color_8bit_fg cell fg_key ++ color_8bit_bg cell bg_key

/-- Foreground half of `print_color_pal` (nuru-cat.c lines 235-248): on a
non-sentinel value, dispatch on the palette tag — 8-bit table, RGB table, and
(implicitly, by the absent `else`) nothing at all for any other tag. -/
def color_pal_fg (cell : nuru_cell_s) (fg_key : Nat) (pal : nuru_pal_s) : List Tok :=
  if cell.fg ≠ fg_key then
    match pal with
    | nuru_pal_s.color8bit _ => [Tok.sgrFg8 (nuru_pal_get_col_8bit pal cell.fg)]
    | nuru_pal_s.colorRGB _ =>
        [Tok.sgrFgRGB (nuru_pal_get_col_rgb pal cell.fg).r
          (nuru_pal_get_col_rgb pal cell.fg).g (nuru_pal_get_col_rgb pal cell.fg).b]
    | nuru_pal_s.glyphTable _ => []
  else []

/-- Background half of `print_color_pal` (nuru-cat.c lines 250-263). -/
def color_pal_bg (cell : nuru_cell_s) (bg_key : Nat) (pal : nuru_pal_s) : List Tok :=
  if cell.bg ≠ bg_key then
    match pal with
    | nuru_pal_s.color8bit _ => [Tok.sgrBg8 (nuru_pal_get_col_8bit pal cell.bg)]
    | nuru_pal_s.colorRGB _ =>
        [Tok.sgrBgRGB (nuru_pal_get_col_rgb pal cell.bg).r
          (nuru_pal_get_col_rgb pal cell.bg).g (nuru_pal_get_col_rgb pal cell.bg).b]
    | nuru_pal_s.glyphTable _ => []
  else []

/-- `print_color_pal` (nuru-cat.c lines 232-264). -/
def print_color_pal (cell : nuru_cell_s) (fg_key bg_key : Nat) (pal : nuru_pal_s) : List Tok :=
  color_pal_fg cell fg_key pal ++ color_pal_bg cell bg_key pal

/-- `print_glyph_none` (nuru-cat.c lines 266-271): one blank glyph. -/
def print_glyph_none : List Tok := [Tok.chr NURU_SPACE]

/-- `print_glyph_ascii` (nuru-cat.c lines 273-282). -/
def print_glyph_ascii (cell : nuru_cell_s) (ch_key : Nat) : List Tok :=
  if cell.ch = ch_key then print_glyph_none else [Tok.chr cell.ch]

/-- `print_glyph_unicode` (nuru-cat.c lines 284-293). -/
def print_glyph_unicode (cell : nuru_cell_s) (ch_key : Nat) : List Tok :=
  if cell.ch = ch_key then print_glyph_none else [Tok.chr cell.ch]

/-- `print_glyph_pal` (nuru-cat.c lines 295-305). -/
def print_glyph_pal (cell : nuru_cell_s) (ch_key : Nat) (nug : nuru_pal_s) : List Tok :=
  if cell.ch = ch_key then print_glyph_none
  else [Tok.chr (nuru_pal_get_glyph nug cell.ch)]

/-- The color `switch` of `print_nui` (nuru-cat.c lines 318-331); the `None`
case is an empty `break`. -/
def color_out (nui : nuru_img_s) (nuc : nuru_pal_s) (cell : nuru_cell_s) : List Tok :=
  match nui.color_mode with
  | ColorMode.none => []
  | ColorMode.c4bit => print_color_4bit cell nui.fg_key nui.bg_key
  | ColorMode.c8bit => print_color_8bit cell nui.fg_key nui.bg_key
  | ColorMode.palette => print_color_pal cell nui.fg_key nui.bg_key nuc

/-- The glyph `switch` of `print_nui` (nuru-cat.c lines 333-347). -/
def glyph_out (nui : nuru_img_s) (nug : nuru_pal_s) (cell : nuru_cell_s) : List Tok :=
  match nui.glyph_mode with
  | GlyphMode.none => print_glyph_none
  | GlyphMode.ascii => print_glyph_ascii cell nui.ch_key
  | GlyphMode.unicode => print_glyph_unicode cell nui.ch_key
  | GlyphMode.palette => print_glyph_pal cell nui.ch_key nug

/-- The inner-loop body of `print_nui` (nuru-cat.c lines 316-348): color
dispatch, glyph dispatch, then `fputws(ANSI_FONT_RESET, stdout)`. -/
def print_cell (nui : nuru_img_s) (nug nuc : nuru_pal_s) (cell : nuru_cell_s) : List Tok :=
  color_out nui nuc cell ++ glyph_out nui nug cell ++ [Tok.reset]

/-- `print_nui` (nuru-cat.c lines 307-354): rows `0 ≤ r < nui->rows && r <
rows`, columns `0 ≤ c < nui->cols && c < cols`, a newline after each row, and
the constant `return -1`. -/
def print_nui (nui : nuru_img_s) (nug nuc : nuru_pal_s) (cols rows : Nat) :
    List Tok × Int :=
  (((List.range (min nui.rows rows)).map (fun r =>
      ((List.range (min nui.cols cols)).map (fun c =>
        print_cell nui nug nuc (nuru_img_get_cell nui c r))).flatten
      ++ [Tok.nl])).flatten,
   -1)

/-- `color_fg` of the legacy program (part_000 lines 186-190). -/
def color_fg (color : Nat) : List Tok := [Tok.sgrFg8 color]

/-- `color_bg` of the legacy program (part_000 lines 192-196). -/
def color_bg (color : Nat) : List Tok := [Tok.sgrBg8 color]

/-- The legacy `print_nui` (part_000 lines 198-224): iterates over the full
`img->rows × img->cols` grid, ignoring the supplied `cols`/`rows` area; always
emits 8-bit color sequences gated only on the two sentinel keys; prints
`pal ? pal->codepoints[cell->ch] : cell->ch` with no glyph-key check; then the
reset, a newline per row, and `return -1`.  The optional `codepoints` table of
the legacy palette struct (missing `nuru.h`) is modelled as a list, per spec
section 3's `GlyphTable`. -/
def legacy_print_nui (img : nuru_img_s) (pal : Option (List Nat))
    (cols rows : Nat) : List Tok × Int :=
  (((List.range img.rows).map (fun r =>
      ((List.range img.cols).map (fun c =>
        let cell := nuru_img_get_cell img c r
        (if cell.fg ≠ img.fg_key then color_fg cell.fg else []) ++
        (if cell.bg ≠ img.bg_key then color_bg cell.bg else []) ++
        [Tok.chr (match pal with
          | some cps => cps.getD cell.ch 0
          | none => cell.ch)] ++
        [Tok.reset])).flatten
      ++ [Tok.nl])).flatten,
   -1)

/-- `EXIT_SUCCESS`. -/
def EXIT_SUCCESS : Nat := 0

/-- The display phase of `main` (nuru-cat.c lines 513-520): `print_nui` is
called, its return value is discarded, and `main` returns `EXIT_SUCCESS`. -/
def main_display (nui : nuru_img_s) (nug nuc : nuru_pal_s) (cols rows : Nat) : Nat :=
  let _ := print_nui nui nug nuc cols rows
  EXIT_SUCCESS

/-- Terminal-state abstraction for color bleed: `true` when some color-set
sequence is in effect.  Color-set tokens switch it on, the style reset
switches it off, glyphs and newlines leave it unchanged. -/
def applyTok : Bool → Tok → Bool
  | _, Tok.sgr _ => true
  | _, Tok.sgrFg8 _ => true
  | _, Tok.sgrBg8 _ => true
  | _, Tok.sgrFgRGB _ _ _ => true
  | _, Tok.sgrBgRGB _ _ _ => true
  | _, Tok.reset => false
  | s, Tok.chr _ => s
  | s, Tok.nl => s

/-- A 10 × 5 image (50 cells, row-major, cell `(r, c)` has glyph value
`10 * r + c`), glyph mode `Ascii`, color mode `None`, keys out of the way:
the spec's clipping example. -/
def demo_img_10x5 : nuru_img_s :=
  { color_mode := ColorMode.none
    glyph_mode := GlyphMode.ascii
    cols := 10
    rows := 5
    ch_key := 255
    fg_key := 255
    bg_key := 255
    cells := (List.range 50).map (fun i => ⟨i, 0, 0⟩) }

/-- A 3 × 2 image used to exhibit clipping: cell `(r, c)` has glyph `10 * r + c`. -/
def clip_img_a : nuru_img_s :=
  { color_mode := ColorMode.none
    glyph_mode := GlyphMode.ascii
    cols := 3
    rows := 2
    ch_key := 255
    fg_key := 255
    bg_key := 255
    cells := [⟨0, 0, 0⟩, ⟨1, 0, 0⟩, ⟨2, 0, 0⟩, ⟨10, 0, 0⟩, ⟨11, 0, 0⟩, ⟨12, 0, 0⟩] }

/-- Like `clip_img_a` but with every cell outside the 2-column × 1-row clip
window replaced by a different glyph. -/
def clip_img_b : nuru_img_s :=
  { color_mode := ColorMode.none
    glyph_mode := GlyphMode.ascii
    cols := 3
    rows := 2
    ch_key := 255
    fg_key := 255
    bg_key := 255
    cells := [⟨0, 0, 0⟩, ⟨1, 0, 0⟩, ⟨99, 0, 0⟩, ⟨97, 0, 0⟩, ⟨98, 0, 0⟩, ⟨96, 0, 0⟩] }

/-- A 2 × 1 image in `PaletteIndexed` color mode whose cells carry
non-sentinel fg and bg indices: used to show what happens when the color
palette supplied for it is a `GlyphTable`. -/
def mismatch_img : nuru_img_s :=
  { color_mode := ColorMode.palette
    glyph_mode := GlyphMode.ascii
    cols := 2
    rows := 1
    ch_key := 255
    fg_key := 0
    bg_key := 0
    cells := [⟨65, 3, 7⟩, ⟨66, 3, 7⟩] }

/-- A 1 × 1 image in glyph mode None whose single cell stores the printable
character code 65. -/
def none_img : nuru_img_s :=
  { color_mode := ColorMode.none
    glyph_mode := GlyphMode.none
    cols := 1
    rows := 1
    ch_key := 0
    fg_key := 0
    bg_key := 0
    cells := [⟨65, 1, 2⟩] }

/-- Recognizer for the newline token. -/
def Tok.isNl : Tok → Bool
  | Tok.nl => true
  | _ => false

/-- Recognizer for the style-reset token. -/
def Tok.isReset : Tok → Bool
  | Tok.reset => true
  | _ => false

/-- A 1 × 1 image in `Direct4Bit` color mode whose single cell has a
non-sentinel foreground: input on which the two pipelines differ. -/
def div_img : nuru_img_s :=
  { color_mode := ColorMode.c4bit
    glyph_mode := GlyphMode.ascii
    cols := 1
    rows := 1
    ch_key := 255
    fg_key := 255
    bg_key := 255
    cells := [⟨65, 1, 255⟩] }

/-- Appending a style reset leaves the color-bleed state cleared, whatever came
before. -/
theorem foldl_applyTok_reset (s : Bool) (l : List Tok) :
    List.foldl applyTok s (l ++ [Tok.reset]) = false := by
  rw [List.foldl_append]
  rfl

/-- The countP of a flatten whose member lists all have countP `k` is
`length * k`. -/
theorem countP_flatten_const (p : Tok → Bool) (L : List (List Tok)) (k : Nat)
    (h : ∀ l ∈ L, l.countP p = k) : L.flatten.countP p = L.length * k := by
  induction L with
  | nil => simp
  | cons a L ih =>
      have ha := h a (by simp)
      have hL := ih (fun l hl => h l (by simp [hl]))
      simp only [List.flatten_cons, List.countP_append, ha, hL, List.length_cons]
      ring

/-- `color_out` emits only color-set tokens: never a newline, never a reset. -/
theorem color_out_counts (nui : nuru_img_s) (nuc : nuru_pal_s) (cell : nuru_cell_s) :
    (color_out nui nuc cell).countP Tok.isNl = 0 ∧
    (color_out nui nuc cell).countP Tok.isReset = 0 := by
  cases hm : nui.color_mode <;> cases nuc <;>
    simp only [color_out, hm, print_color_4bit, color_4bit_fg, color_4bit_bg,
      print_color_8bit, color_8bit_fg, color_8bit_bg,
      print_color_pal, color_pal_fg, color_pal_bg, List.countP_append] <;>
    (try split_ifs) <;>
    simp [List.countP_cons, List.countP_nil, Tok.isNl, Tok.isReset]

/-- `glyph_out` emits exactly one character token. -/
theorem glyph_out_counts (nui : nuru_img_s) (nug : nuru_pal_s) (cell : nuru_cell_s) :
    (glyph_out nui nug cell).countP Tok.isNl = 0 ∧
    (glyph_out nui nug cell).countP Tok.isReset = 0 := by
  cases hm : nui.glyph_mode <;>
    simp only [glyph_out, hm, print_glyph_ascii, print_glyph_unicode, print_glyph_pal,
      print_glyph_none] <;>
    (try split_ifs) <;>
    simp [List.countP_cons, List.countP_nil, Tok.isNl, Tok.isReset]

/-- Each cell block contains no newline and exactly one reset. -/
theorem print_cell_counts (nui : nuru_img_s) (nug nuc : nuru_pal_s) (cell : nuru_cell_s) :
    (print_cell nui nug nuc cell).countP Tok.isNl = 0 ∧
    (print_cell nui nug nuc cell).countP Tok.isReset = 1 := by
  have hc := color_out_counts nui nuc cell
  have hg := glyph_out_counts nui nug cell
  simp [print_cell, List.countP_append, hc.1, hc.2, hg.1, hg.2,
    List.countP_cons, Tok.isNl, Tok.isReset]

/-- The cell block depends on the image only through its modes and keys. -/
theorem print_cell_congr (nui nui' : nuru_img_s) (nug nuc : nuru_pal_s) (cell : nuru_cell_s)
    (hcm : nui'.color_mode = nui.color_mode) (hgm : nui'.glyph_mode = nui.glyph_mode)
    (hck : nui'.ch_key = nui.ch_key) (hfk : nui'.fg_key = nui.fg_key)
    (hbk : nui'.bg_key = nui.bg_key) :
    print_cell nui' nug nuc cell = print_cell nui nug nuc cell := by
  simp only [print_cell, color_out, glyph_out, hcm, hgm, hck, hfk, hbk]

/-- `print_nui` emits exactly `min nui.rows rows` newline tokens: one per
visited row, none anywhere else. -/
theorem print_nui_countP_isNl (nui : nuru_img_s) (nug nuc : nuru_pal_s) (cols rows : Nat) :
    (print_nui nui nug nuc cols rows).1.countP Tok.isNl = min nui.rows rows := by
  have h : ∀ l ∈ (List.range (min nui.rows rows)).map (fun r =>
      ((List.range (min nui.cols cols)).map (fun c =>
        print_cell nui nug nuc (nuru_img_get_cell nui c r))).flatten ++ [Tok.nl]),
      l.countP Tok.isNl = 1 := by
    intro l hl
    obtain ⟨r, _, rfl⟩ := List.mem_map.mp hl
    have h0 : ∀ l2 ∈ (List.range (min nui.cols cols)).map (fun c =>
        print_cell nui nug nuc (nuru_img_get_cell nui c r)),
        l2.countP Tok.isNl = 0 := by
      intro l2 hl2
      obtain ⟨c, _, rfl⟩ := List.mem_map.mp hl2
      exact (print_cell_counts nui nug nuc _).1
    rw [List.countP_append, countP_flatten_const Tok.isNl _ 0 h0]
    simp [List.countP_cons, Tok.isNl]
  simp only [print_nui]
  rw [countP_flatten_const Tok.isNl _ 1 h]
  simp

/-- `print_nui` emits exactly one reset token per visited cell:
`min nui.rows rows * min nui.cols cols` in total. -/
theorem print_nui_countP_isReset (nui : nuru_img_s) (nug nuc : nuru_pal_s) (cols rows : Nat) :
    (print_nui nui nug nuc cols rows).1.countP Tok.isReset
      = min nui.rows rows * min nui.cols cols := by
  have h : ∀ l ∈ (List.range (min nui.rows rows)).map (fun r =>
      ((List.range (min nui.cols cols)).map (fun c =>
        print_cell nui nug nuc (nuru_img_get_cell nui c r))).flatten ++ [Tok.nl]),
      l.countP Tok.isReset = min nui.cols cols := by
    intro l hl
    obtain ⟨r, _, rfl⟩ := List.mem_map.mp hl
    have h1 : ∀ l2 ∈ (List.range (min nui.cols cols)).map (fun c =>
        print_cell nui nug nuc (nuru_img_get_cell nui c r)),
        l2.countP Tok.isReset = 1 := by
      intro l2 hl2
      obtain ⟨c, _, rfl⟩ := List.mem_map.mp hl2
      exact (print_cell_counts nui nug nuc _).2
    rw [List.countP_append, countP_flatten_const Tok.isReset _ 1 h1]
    simp [List.countP_cons, Tok.isReset]
  simp only [print_nui]
  rw [countP_flatten_const Tok.isReset _ (min nui.cols cols) h]
  simp

/-- The driver's output depends only on the modes, the keys and the cells
inside the clipped region: cells outside `min nui.rows rows ×
min nui.cols cols` are never read. -/
theorem print_nui_congr (nui nui' : nuru_img_s) (nug nuc : nuru_pal_s) (cols rows : Nat)
    (hc : nui'.cols = nui.cols) (hr : nui'.rows = nui.rows)
    (hcm : nui'.color_mode = nui.color_mode) (hgm : nui'.glyph_mode = nui.glyph_mode)
    (hck : nui'.ch_key = nui.ch_key) (hfk : nui'.fg_key = nui.fg_key)
    (hbk : nui'.bg_key = nui.bg_key)
    (hcells : ∀ r < min nui.rows rows, ∀ c < min nui.cols cols,
      nuru_img_get_cell nui' c r = nuru_img_get_cell nui c r) :
    (print_nui nui' nug nuc cols rows).1 = (print_nui nui nug nuc cols rows).1 := by
  simp only [print_nui, hc, hr]
  apply congrArg List.flatten
  apply List.map_congr_left
  intro r hrm
  have hrlt : r < min nui.rows rows := List.mem_range.mp hrm
  congr 1
  apply congrArg List.flatten
  apply List.map_congr_left
  intro c hcm2
  have hclt : c < min nui.cols cols := List.mem_range.mp hcm2
  rw [hcells r hrlt c hclt]
  exact print_cell_congr nui nui' nug nuc _ hcm hgm hck hfk hbk

/-- Claim C1: for every cell and every non-None color/glyph mode, a fg value
equal to `fg_key` makes the foreground emission empty, a bg value equal to
`bg_key` makes the background emission empty, and a glyph value equal to the
glyph key makes the blank glyph be emitted instead of the stored glyph — each
of the three sentinel fields suppressing independently of the other two (no
conjunct constrains the other fields). -/
theorem sentinel_keys_suppress (cell : nuru_cell_s) (fg_key bg_key ch_key : Nat)
    (nuc nug : nuru_pal_s) :
    (cell.fg = fg_key → color_4bit_fg cell fg_key = [] ∧ color_8bit_fg cell fg_key = [] ∧
      color_pal_fg cell fg_key nuc = []) ∧
    (cell.bg = bg_key → color_4bit_bg cell bg_key = [] ∧ color_8bit_bg cell bg_key = [] ∧
      color_pal_bg cell bg_key nuc = []) ∧
    (cell.ch = ch_key → print_glyph_ascii cell ch_key = [Tok.chr NURU_SPACE] ∧
      print_glyph_unicode cell ch_key = [Tok.chr NURU_SPACE] ∧
      print_glyph_pal cell ch_key nug = [Tok.chr NURU_SPACE]) := by
  refine ⟨fun h => ⟨?_, ?_, ?_⟩, fun h => ⟨?_, ?_, ?_⟩, fun h => ⟨?_, ?_, ?_⟩⟩ <;>
    simp [color_4bit_fg, color_8bit_fg, color_pal_fg, color_4bit_bg, color_8bit_bg,
      color_pal_bg, print_glyph_ascii, print_glyph_unicode, print_glyph_pal,
      print_glyph_none, h]

/-- Witness for `sentinel_keys_suppress` at the all-sentinel cell `⟨9, 9, 9⟩`
with keys `9, 9, 9`. -/
theorem sentinel_keys_suppress_witness :
    (color_4bit_fg ⟨9, 9, 9⟩ 9 = [] ∧ color_8bit_fg ⟨9, 9, 9⟩ 9 = [] ∧
      color_pal_fg ⟨9, 9, 9⟩ 9 (nuru_pal_s.color8bit [1, 2]) = []) ∧
    (color_4bit_bg ⟨9, 9, 9⟩ 9 = [] ∧ color_8bit_bg ⟨9, 9, 9⟩ 9 = [] ∧
      color_pal_bg ⟨9, 9, 9⟩ 9 (nuru_pal_s.color8bit [1, 2]) = []) ∧
    (print_glyph_ascii ⟨9, 9, 9⟩ 9 = [Tok.chr NURU_SPACE] ∧
      print_glyph_unicode ⟨9, 9, 9⟩ 9 = [Tok.chr NURU_SPACE] ∧
      print_glyph_pal ⟨9, 9, 9⟩ 9 (nuru_pal_s.glyphTable [65, 66]) = [Tok.chr NURU_SPACE]) := by
  have h := sentinel_keys_suppress ⟨9, 9, 9⟩ 9 9 9 (nuru_pal_s.color8bit [1, 2])
    (nuru_pal_s.glyphTable [65, 66])
  exact ⟨h.1 rfl, h.2.1 rfl, h.2.2 rfl⟩

/-- Claim C2 counterexample: under `Direct4Bit`, the non-sentinel value 16 is
not rejected — the code emits the sequence with parameter 98 — and the value
204 even wraps around to parameter 30, which is exactly the standard-color-0
sequence that value 0 produces. -/
theorem direct4bit_not_rejected :
    color_4bit_fg ⟨0, 16, 0⟩ 255 = [Tok.sgr 98] ∧
    color_4bit_fg ⟨0, 204, 0⟩ 255 = [Tok.sgr 30] ∧
    color_4bit_fg ⟨0, 0, 0⟩ 255 = [Tok.sgr 30] := by decide

/-- Claim C2, amended: under `Direct4Bit`, non-sentinel values 0-7 map to the
standard colors (SGR 30-37 foreground, 40-47 background) and 8-15 to the
bright ones (90-97 / 100-107), but values 16-255 are not rejected: the code
emits an SGR sequence with parameter `(v + 82) % 256` for the foreground
(`(v + 92) % 256` for the background), which for some values coincides with a
valid color sequence. -/
theorem direct4bit_mapping (cell : nuru_cell_s) (fg_key bg_key : Nat) :
    (cell.fg ≠ fg_key → cell.fg < 8 →
      color_4bit_fg cell fg_key = [Tok.sgr (30 + cell.fg)]) ∧
    (cell.fg ≠ fg_key → 8 ≤ cell.fg → cell.fg ≤ 15 →
      color_4bit_fg cell fg_key = [Tok.sgr (82 + cell.fg)]) ∧
    (cell.fg ≠ fg_key → 16 ≤ cell.fg →
      color_4bit_fg cell fg_key = [Tok.sgr ((cell.fg + 82) % 256)]) ∧
    (cell.bg ≠ bg_key → cell.bg < 8 →
      color_4bit_bg cell bg_key = [Tok.sgr (40 + cell.bg)]) ∧
    (cell.bg ≠ bg_key → 8 ≤ cell.bg → cell.bg ≤ 15 →
      color_4bit_bg cell bg_key = [Tok.sgr (92 + cell.bg)]) ∧
    (cell.bg ≠ bg_key → 16 ≤ cell.bg →
      color_4bit_bg cell bg_key = [Tok.sgr ((cell.bg + 92) % 256)]) := by
  refine ⟨fun h h8 => ?_, fun h h8 h15 => ?_, fun h h16 => ?_,
    fun h h8 => ?_, fun h h8 h15 => ?_, fun h h16 => ?_⟩
  · have hm : (cell.fg + 30) % 256 = 30 + cell.fg := by omega
    simp [color_4bit_fg, h, h8, hm]
  · have hn : ¬ cell.fg < 8 := by omega
    have hm : (cell.fg + 82) % 256 = 82 + cell.fg := by omega
    simp [color_4bit_fg, h, hn, hm]
  · have hn : ¬ cell.fg < 8 := by omega
    simp [color_4bit_fg, h, hn]
  · have hm : (cell.bg + 30 + 10) % 256 = 40 + cell.bg := by omega
    simp [color_4bit_bg, h, h8, hm]
  · have hn : ¬ cell.bg < 8 := by omega
    have hm : (cell.bg + 82 + 10) % 256 = 92 + cell.bg := by omega
    simp [color_4bit_bg, h, hn, hm]
  · have hn : ¬ cell.bg < 8 := by omega
    have hm : (cell.bg + 82 + 10) % 256 = (cell.bg + 92) % 256 := by omega
    simp [color_4bit_bg, h, hn, hm]

/-- Witness for `direct4bit_mapping`, applied at the concrete values 3, 12
and 204 for the foreground and 5, 15 and 100 for the background. -/
theorem direct4bit_mapping_witness :
    color_4bit_fg ⟨0, 3, 0⟩ 255 = [Tok.sgr 33] ∧
    color_4bit_fg ⟨0, 12, 0⟩ 255 = [Tok.sgr 94] ∧
    color_4bit_fg ⟨0, 204, 0⟩ 255 = [Tok.sgr (286 % 256)] ∧
    color_4bit_bg ⟨0, 0, 5⟩ 255 = [Tok.sgr 45] ∧
    color_4bit_bg ⟨0, 0, 15⟩ 255 = [Tok.sgr 107] ∧
    color_4bit_bg ⟨0, 0, 100⟩ 255 = [Tok.sgr (192 % 256)] :=
  ⟨(direct4bit_mapping ⟨0, 3, 0⟩ 255 255).1 (by decide) (by decide),
   (direct4bit_mapping ⟨0, 12, 0⟩ 255 255).2.1 (by decide) (by decide) (by decide),
   (direct4bit_mapping ⟨0, 204, 0⟩ 255 255).2.2.1 (by decide) (by decide),
   (direct4bit_mapping ⟨0, 0, 5⟩ 255 255).2.2.2.1 (by decide) (by decide),
   (direct4bit_mapping ⟨0, 0, 15⟩ 255 255).2.2.2.2.1 (by decide) (by decide) (by decide),
   (direct4bit_mapping ⟨0, 0, 100⟩ 255 255).2.2.2.2.2 (by decide) (by decide)⟩

/-- Claim C3 counterexample: with a `GlyphTable` palette supplied where a
color palette was expected, the renderer produces no error of any kind — the
color emission of a non-sentinel cell is silently empty, and the driver still
renders every cell of the image and its newline. -/
theorem pal_type_mismatch_no_error :
    print_color_pal ⟨65, 3, 7⟩ 0 0 (nuru_pal_s.glyphTable [88, 89]) = [] ∧
    (print_nui mismatch_img (nuru_pal_s.glyphTable []) (nuru_pal_s.glyphTable [88, 89])
        80 24).1 =
      [Tok.chr 65, Tok.reset, Tok.chr 66, Tok.reset, Tok.nl] := by decide

/-- Claim C3, amended: under `PaletteIndexed` color mode, a `GlyphTable`
palette supplied where a color palette was expected makes the fg and bg color
emission silently empty for every cell — no typed error is produced (the
renderer has no error channel at all; `print_nui` always returns `-1`) and
rendering continues with the remaining cells. -/
theorem pal_type_mismatch_skipped (cell : nuru_cell_s) (fg_key bg_key : Nat)
    (entries : List Nat) :
    print_color_pal cell fg_key bg_key (nuru_pal_s.glyphTable entries) = [] := by
  simp [print_color_pal, color_pal_fg, color_pal_bg]

/-- Claim C5: under `PaletteIndexed` color mode with a non-sentinel value, a
`ColorTable8Bit` palette makes the renderer emit the resolved value as an
8-bit color-set sequence, and a `ColorTableRGB` palette makes it emit a
true-color sequence carrying the resolved `(r, g, b)` triple. -/
theorem palette_color_emission (cell : nuru_cell_s) (fg_key bg_key : Nat)
    (es : List Nat) (rgbs : List nuru_rgb_s) :
    (cell.fg ≠ fg_key →
      color_pal_fg cell fg_key (nuru_pal_s.color8bit es) =
        [Tok.sgrFg8 (es.getD cell.fg 0)] ∧
      color_pal_fg cell fg_key (nuru_pal_s.colorRGB rgbs) =
        [Tok.sgrFgRGB (rgbs.getD cell.fg ⟨0, 0, 0⟩).r (rgbs.getD cell.fg ⟨0, 0, 0⟩).g
          (rgbs.getD cell.fg ⟨0, 0, 0⟩).b]) ∧
    (cell.bg ≠ bg_key →
      color_pal_bg cell bg_key (nuru_pal_s.color8bit es) =
        [Tok.sgrBg8 (es.getD cell.bg 0)] ∧
      color_pal_bg cell bg_key (nuru_pal_s.colorRGB rgbs) =
        [Tok.sgrBgRGB (rgbs.getD cell.bg ⟨0, 0, 0⟩).r (rgbs.getD cell.bg ⟨0, 0, 0⟩).g
          (rgbs.getD cell.bg ⟨0, 0, 0⟩).b]) := by
  constructor <;> intro h <;>
    simp [color_pal_fg, color_pal_bg, nuru_pal_get_col_8bit, nuru_pal_get_col_rgb, h]

/-- Witness for `palette_color_emission`: the spec's one-entry RGB palette
`[(255, 0, 0)]` with cell fg-index 0 produces the true-color red sequence,
and 8-bit tables resolve for both fg and bg. -/
theorem palette_color_emission_witness :
    color_pal_fg ⟨0, 0, 3⟩ 255 (nuru_pal_s.colorRGB [⟨255, 0, 0⟩]) =
      [Tok.sgrFgRGB 255 0 0] ∧
    color_pal_fg ⟨0, 0, 3⟩ 255 (nuru_pal_s.color8bit [196]) = [Tok.sgrFg8 196] ∧
    color_pal_bg ⟨0, 0, 3⟩ 255 (nuru_pal_s.color8bit [196, 21, 46, 82]) =
      [Tok.sgrBg8 82] :=
  ⟨((palette_color_emission ⟨0, 0, 3⟩ 255 255 [196] [⟨255, 0, 0⟩]).1 (by decide)).2,
   ((palette_color_emission ⟨0, 0, 3⟩ 255 255 [196] [⟨255, 0, 0⟩]).1 (by decide)).1,
   ((palette_color_emission ⟨0, 0, 3⟩ 255 255 [196, 21, 46, 82] []).2 (by decide)).1⟩

/-- Claim C6: under glyph mode None the renderer emits the fixed blank glyph
for every cell, whatever the stored glyph value. -/
theorem glyph_mode_none_blank (nui : nuru_img_s) (nug : nuru_pal_s) (cell : nuru_cell_s)
    (h : nui.glyph_mode = GlyphMode.none) :
    glyph_out nui nug cell = [Tok.chr NURU_SPACE] := by
  simp [glyph_out, h, print_glyph_none]

/-- Witness for `glyph_mode_none_blank` at a cell whose stored glyph value 65
is a printable character code. -/
theorem glyph_mode_none_blank_witness :
    glyph_out none_img (nuru_pal_s.glyphTable [70, 71]) ⟨65, 1, 2⟩ =
      [Tok.chr NURU_SPACE] :=
  glyph_mode_none_blank none_img (nuru_pal_s.glyphTable [70, 71]) ⟨65, 1, 2⟩ rfl

/-- Claim C7: every cell block ends in a state with no color-set sequence in
effect — folding the bleed-state machine over one cell's output yields
`false` from any starting state, so no cell's color changes are live when the
next cell's output begins. -/
theorem cell_block_clears_colors (nui : nuru_img_s) (nug nuc : nuru_pal_s)
    (cell : nuru_cell_s) (s : Bool) :
    List.foldl applyTok s (print_cell nui nug nuc cell) = false := by
  simp [print_cell, List.foldl_append, applyTok]

/-- Claim C8: the two cell-printing pipelines differ — on `div_img` (a 1 × 1
4-bit-mode image with one non-sentinel foreground) the mode-aware driver and
the legacy driver write different terminal byte streams. -/
theorem pipelines_diverge :
    outBytes (print_nui div_img (nuru_pal_s.glyphTable []) (nuru_pal_s.color8bit [])
        80 24).1 ≠
      outBytes (legacy_print_nui div_img none 80 24).1 := by decide

/-- Claim C9: the Ascii and Unicode glyph resolution paths are extensionally
equal functions. -/
theorem ascii_unicode_glyph_paths_agree (cell : nuru_cell_s) (ch_key : Nat) :
    print_glyph_ascii cell ch_key = print_glyph_unicode cell ch_key := rfl

/-- Claim C10: `print_nui` returns `-1` for every image, palette pair and
output area — even after a fully completed render — and `main` ignores that
value and returns `EXIT_SUCCESS` regardless. -/
theorem print_nui_returns_minus_one (nui : nuru_img_s) (nug nuc : nuru_pal_s)
    (cols rows : Nat) :
    (print_nui nui nug nuc cols rows).2 = -1 ∧
    main_display nui nug nuc cols rows = EXIT_SUCCESS :=
  ⟨rfl, rfl⟩

/-- Claim C4: the render driver visits exactly the cells with row index below
`min nui.rows rows` and column index below `min nui.cols cols`, in row-major
order — the output is unchanged when any cell outside that clipped region is
replaced, it holds exactly one newline per visited row and exactly one reset
per visited cell, and on the spec's example a 10 × 5 image rendered into a
4 × 2 area yields exactly 2 rows of 4 rendered cells each, each row followed
by its line break, visiting cells `(0,0)` through `(1,3)` only. -/
theorem render_driver_clips (nui nui' : nuru_img_s) (nug nuc : nuru_pal_s)
    (cols rows : Nat)
    (hc : nui'.cols = nui.cols) (hr : nui'.rows = nui.rows)
    (hcm : nui'.color_mode = nui.color_mode) (hgm : nui'.glyph_mode = nui.glyph_mode)
    (hck : nui'.ch_key = nui.ch_key) (hfk : nui'.fg_key = nui.fg_key)
    (hbk : nui'.bg_key = nui.bg_key)
    (hcells : ∀ r < min nui.rows rows, ∀ c < min nui.cols cols,
      nuru_img_get_cell nui' c r = nuru_img_get_cell nui c r) :
    (print_nui nui' nug nuc cols rows).1 = (print_nui nui nug nuc cols rows).1 ∧
    (print_nui nui nug nuc cols rows).1.countP Tok.isNl = min nui.rows rows ∧
    (print_nui nui nug nuc cols rows).1.countP Tok.isReset
      = min nui.rows rows * min nui.cols cols ∧
    (print_nui demo_img_10x5 nug nuc 4 2).1 =
      [Tok.chr 0, Tok.reset, Tok.chr 1, Tok.reset, Tok.chr 2, Tok.reset,
        Tok.chr 3, Tok.reset, Tok.nl,
        Tok.chr 10, Tok.reset, Tok.chr 11, Tok.reset, Tok.chr 12, Tok.reset,
        Tok.chr 13, Tok.reset, Tok.nl] :=
  ⟨print_nui_congr nui nui' nug nuc cols rows hc hr hcm hgm hck hfk hbk hcells,
   print_nui_countP_isNl nui nug nuc cols rows,
   print_nui_countP_isReset nui nug nuc cols rows,
   rfl⟩

/-- Witness for `render_driver_clips`: `clip_img_a` and `clip_img_b` agree
only inside the 1-row × 2-column clip window yet render identically there. -/
theorem render_driver_clips_witness :
    (print_nui clip_img_b (nuru_pal_s.glyphTable []) (nuru_pal_s.color8bit []) 2 1).1 =
      (print_nui clip_img_a (nuru_pal_s.glyphTable []) (nuru_pal_s.color8bit []) 2 1).1 ∧
    (print_nui clip_img_a (nuru_pal_s.glyphTable []) (nuru_pal_s.color8bit [])
        2 1).1.countP Tok.isNl = min clip_img_a.rows 1 ∧
    (print_nui clip_img_a (nuru_pal_s.glyphTable []) (nuru_pal_s.color8bit [])
        2 1).1.countP Tok.isReset = min clip_img_a.rows 1 * min clip_img_a.cols 2 ∧
    (print_nui demo_img_10x5 (nuru_pal_s.glyphTable []) (nuru_pal_s.color8bit []) 4 2).1 =
      [Tok.chr 0, Tok.reset, Tok.chr 1, Tok.reset, Tok.chr 2, Tok.reset,
        Tok.chr 3, Tok.reset, Tok.nl,
        Tok.chr 10, Tok.reset, Tok.chr 11, Tok.reset, Tok.chr 12, Tok.reset,
        Tok.chr 13, Tok.reset, Tok.nl] :=
  render_driver_clips clip_img_a clip_img_b (nuru_pal_s.glyphTable [])
    (nuru_pal_s.color8bit []) 2 1 rfl rfl rfl rfl rfl rfl rfl (by decide)
